import Mathlib

/-!
Shallow embedding of `mcp-server/server.py` (class `SecurityMCPServer`):
the sandbox containment check, the sensitivity classifier
`is_sensitive_file`, the CAEP event generator `generate_caep_event`, and
the two tool handlers `handle_file_read` and `handle_list_files`.

The filesystem and the wall clock are abstracted as oracle functions
(`FS`, a `now` argument); Python string operations are modelled over
`String.data` character lists; the HTTP POST outcome inside
`generate_caep_event` is an explicit `PostResult` argument, and the
`try/except` around it is modelled by the function being total in that
argument.
-/

namespace SSF

/-- Python `pat in s` substring test over character lists: some position
`i` of `s` has `pat` as a prefix of the remaining characters. -/
def containsSub (s pat : List Char) : Bool :=
  (List.range (s.length + 1)).any (fun i => pat.isPrefixOf (List.drop i s))

/-- Python `pat in s` on strings. -/
def pyContains (s pat : String) : Bool :=
  containsSub s.data pat.data

/-- Python `s.lower()`, modelled as character-wise lower-casing. -/
def pyLower (s : String) : String :=
  ⟨s.data.map Char.toLower⟩

/-- Python `s.startswith (pat)`. -/
def pyStartsWith (s pat : String) : Bool :=
  pat.data.isPrefixOf s.data

/-- The pattern list set in `SecurityMCPServer.__init__` (server.py line 26). -/
def monitored_patterns : List String :=
  [".secret", ".credentials", "/secure/", "api-key", "password"]

/-- The sandbox root hardcoded in `handle_file_read` (server.py line 95). -/
def sandbox_root : String := "/workspace/test-files"

/-- The sandbox containment check of `handle_file_read` (server.py line 95):
a raw string-prefix test of the resolved path against the sandbox root. -/
def withinSandbox (abs_path : String) : Bool :=
  pyStartsWith abs_path sandbox_root

/-- The containment predicate as the specification words it: the absolute
path begins with the sandbox root followed by a path separator, or equals
the root exactly.  Declared only to compare with `withinSandbox`. -/
def specWithinSandbox (abs_path : String) : Bool :=
  pyStartsWith abs_path (sandbox_root ++ "/") || abs_path == sandbox_root

/-- `SecurityMCPServer.is_sensitive_file` (server.py lines 149-152):
lower-case the path and test each monitored pattern, as written, for
substring containment. -/
def is_sensitive_file (monitored : List String) (filepath : String) : Bool :=
  let filepath_lower := pyLower filepath
  monitored.any (fun p => pyContains filepath_lower p)

/-- The classifier condition as the specification words it: some pattern,
itself lower-cased, is a substring of the lower-cased path.  Declared only
to compare with `is_sensitive_file`. -/
def spec_classify (monitored : List String) (filepath : String) : Bool :=
  monitored.any (fun p => pyContains (pyLower filepath) (pyLower p))

/-- One CAEP event as built by `generate_caep_event` (server.py lines
159-184), restricted to the fields the specification's claims are about. -/
structure SecurityEvent where
  jti : String
  iat : Nat
  file_path : String
  access_type : String
deriving DecidableEq

/-- The mutable server state touched by event emission: `self.event_count`
and the sequence of events generated so far in the process run. -/
structure EmitState where
  event_count : Nat
  events : List SecurityEvent
deriving DecidableEq

/-- The state at `__init__`: `self.event_count = 0`, no events yet. -/
def initState : EmitState := ⟨0, []⟩

/-- Outcome of the HTTP POST inside `generate_caep_event`: a response with
some status code, or a raised connection/timeout error. -/
inductive PostResult
  | ok (status : Nat)
  | err (msg : String)
deriving DecidableEq

/-- The `jti` built at server.py line 161. -/
def eventJti (unixSeconds counter : Nat) : String :=
  "event-" ++ Nat.repr unixSeconds ++ "-" ++ Nat.repr counter

/-- `SecurityMCPServer.generate_caep_event` (server.py lines 154-206):
increment the counter, build the event, attempt delivery, and absorb any
delivery failure.  Returns the new state and the delivery log line. -/
def generate_caep_event (st : EmitState) (filepath access_type : String)
    (now : Nat) (post : PostResult) : EmitState × String :=
  let event_count := st.event_count + 1
  let ev : SecurityEvent :=
    { jti := eventJti now event_count, iat := now,
      file_path := filepath, access_type := access_type }
  let log :=
    match post with
    | PostResult.ok status =>
        if status == 200 then "✅ Event delivered to receiver"
        else "⚠️  Receiver returned status: " ++ Nat.repr status
    | PostResult.err e => "⚠️  Receiver not available: " ++ e
  ({ event_count := event_count, events := st.events ++ [ev] }, log)

/-- One directory child as seen by `Path.iterdir`. -/
structure DirEntry where
  name : String
  isDir : Bool
deriving DecidableEq

/-- Filesystem oracle: path resolution, existence and kind tests, file
contents, and directory children. -/
structure FS where
  resolve : String → String
  pathExists : String → Bool
  isFile : String → Bool
  isDir : String → Bool
  readText : String → String
  listDir : String → List DirEntry

/-- Result of `handle_file_read`, one constructor per return site. -/
inductive ReadResult
  | denied (absPath : String)
  | fileContent (absPath : String) (is_sensitive : Bool) (content : String)
  | notFound (absPath : String)
deriving DecidableEq

/-- The exact response text of each `handle_file_read` return site. -/
def renderRead : ReadResult → String
  | ReadResult.denied p =>
      "⚠️  Access denied: File outside allowed directory\nPath: " ++ p
  | ReadResult.fileContent p is_sensitive content =>
      "📄 File: " ++ p ++ "\n"
        ++ (if is_sensitive then "🔒 SECURITY EVENT GENERATED" else "")
        ++ "\n\nContent:\n" ++ content
  | ReadResult.notFound p => "❌ File not found: " ++ p

/-- `SecurityMCPServer.handle_file_read` (server.py lines 81-119): resolve,
classify, emit if sensitive, then sandbox-check, then read. -/
def handle_file_read (fs : FS) (st : EmitState) (now : Nat)
    (post : PostResult) (filepath : String) : ReadResult × EmitState :=
  let abs_path := fs.resolve filepath
  let is_sensitive := is_sensitive_file monitored_patterns abs_path
  let st' :=
    if is_sensitive then (generate_caep_event st abs_path "file_access" now post).1
    else st
  if !(withinSandbox abs_path) then (ReadResult.denied abs_path, st')
  else if fs.pathExists abs_path && fs.isFile abs_path then
    (ReadResult.fileContent abs_path is_sensitive (fs.readText abs_path), st')
  else (ReadResult.notFound abs_path, st')

/-- Display labels of `handle_list_files` (server.py line 135): the three
icons, with the sensitivity marker taking precedence. -/
inductive Label
  | sensitive
  | directory
  | file
deriving DecidableEq

/-- The label chosen for one child (server.py lines 134-135). -/
def entryLabel (item_path : String) (is_dir : Bool) : Label :=
  if is_sensitive_file monitored_patterns item_path then Label.sensitive
  else if is_dir then Label.directory else Label.file

/-- The string form of a child path, `str(item)` for `item` produced by
iterating over the resolved directory. -/
def childPath (dir name : String) : String :=
  if dir = "/" then "/" ++ name else dir ++ "/" ++ name

/-- Result of `handle_list_files`, one constructor per return site. -/
inductive ListResult
  | notFound (absPath : String)
  | listing (absPath : String) (entries : List (Label × String))
deriving DecidableEq

/-- The labelled children built by the loop at server.py lines 132-136. -/
def listingEntries (fs : FS) (abs_path : String) : List (Label × String) :=
  (fs.listDir abs_path).map
    (fun item => (entryLabel (childPath abs_path item.name) item.isDir, item.name))

/-- `SecurityMCPServer.handle_list_files` (server.py lines 121-147):
resolve, existence/kind check, then enumerate and label children. -/
def handle_list_files (fs : FS) (st : EmitState) (dirpath : String) :
    ListResult × EmitState :=
  let abs_path := fs.resolve dirpath
  if !fs.pathExists abs_path || !fs.isDir abs_path then
    (ListResult.notFound abs_path, st)
  else
    (ListResult.listing abs_path (listingEntries fs abs_path), st)

/-- Requests the dispatch shell can forward to the two handlers, with the
ambient time and delivery outcome of a read made explicit. -/
inductive Request
  | readFile (now : Nat) (post : PostResult) (path : String)
  | listFiles (path : String)

/-- State transition of one handled request. -/
def stepServer (fs : FS) (st : EmitState) (r : Request) : EmitState :=
  match r with
  | Request.readFile now post p => (handle_file_read fs st now post p).2
  | Request.listFiles p => (handle_list_files fs st p).2

/-- State after a whole process run of requests. -/
def runServer (fs : FS) (st : EmitState) (reqs : List Request) : EmitState :=
  reqs.foldl (stepServer fs) st

/-! Helper lemmas: substring containment, lower-casing, and decimal
digit-string facts used by the claim theorems. -/

theorem containsSub_iff (s pat : List Char) :
    containsSub s pat = true ↔ ∃ u v, u ++ pat ++ v = s := by
  unfold containsSub
  rw [List.any_eq_true]
  constructor
  · rintro ⟨i, _, hp⟩
    rw [ List.isPrefixOf_iff_prefix] at hp
    obtain ⟨v, hv⟩ := hp
    refine ⟨s.take i, v, ?_⟩
    rw [List.append_assoc, hv, List.take_append_drop]
  · rintro ⟨u, v, huv⟩
    refine ⟨u.length, ?_, ?_⟩
    · rw [List.mem_range]
      have hlen : (u ++ pat ++ v).length = s.length := by rw [huv]
      simp [List.length_append] at hlen
      omega
    · rw [ List.isPrefixOf_iff_prefix, ← huv, List.append_assoc, List.drop_left]
      exact List.prefix_append pat v

theorem containsSub_append (s t pat : List Char)
    (h : containsSub s pat = true) : containsSub (s ++ t) pat = true := by
  rw [containsSub_iff] at h ⊢
  obtain ⟨u, v, huv⟩ := h
  exact ⟨u, v ++ t, by rw [← huv]; simp [List.append_assoc]⟩

theorem pyLower_append (a b : String) :
    pyLower (a ++ b) = pyLower a ++ pyLower b := by
  apply String.ext
  simp [pyLower]

theorem is_sensitive_file_append (monitored : List String) (a t : String)
    (h : is_sensitive_file monitored a = true) :
    is_sensitive_file monitored (a ++ t) = true := by
  unfold is_sensitive_file at h ⊢
  rw [List.any_eq_true] at h ⊢
  obtain ⟨p, hp, hc⟩ := h
  refine ⟨p, hp, ?_⟩
  unfold pyContains at hc ⊢
  rw [pyLower_append, String.data_append]
  exact containsSub_append _ _ _ hc

theorem childPath_decomp (dir name : String) :
    ∃ t, childPath dir name = dir ++ t := by
  unfold childPath
  by_cases h : dir = "/"
  · subst h
    simp
  · refine ⟨"/" ++ name, ?_⟩
    simp only [h, if_false]
    apply String.ext
    simp


theorem toDigitsCore_acc (b : Nat) :
    ∀ (f n : Nat) (acc : List Char),
      Nat.toDigitsCore b f n acc = Nat.toDigitsCore b f n [] ++ acc := by
  intro f
  induction f with
  | zero => intro n acc; simp [Nat.toDigitsCore]
  | succ f ih =>
      intro n acc
      simp only [Nat.toDigitsCore]
      by_cases h : n / b = 0
      · simp [h]
      · simp only [h, if_false]
        rw [ih (n / b) (Nat.digitChar (n % b) :: acc),
            ih (n / b) [Nat.digitChar (n % b)]]
        simp

def valDigits (l : List Char) : Nat :=
  l.foldl (fun a c => 10 * a + (c.toNat - 48)) 0

theorem digitChar_toNat : ∀ m < 10, (Nat.digitChar m).toNat - 48 = m := by decide

theorem digitChar_ne_dash : ∀ m < 10, Nat.digitChar m ≠ '-' := by decide

theorem toDigitsCore_val : ∀ (f n : Nat), n < f →
    valDigits (Nat.toDigitsCore 10 f n []) = n := by
  intro f
  induction f with
  | zero => intro n h; omega
  | succ f ih =>
      intro n h
      simp only [Nat.toDigitsCore]
      by_cases h0 : n / 10 = 0
      · simp only [h0, if_true]
        have hm : n % 10 < 10 := Nat.mod_lt _ (by omega)
        have := digitChar_toNat (n % 10) hm
        simp [valDigits, this]
        omega
      · simp only [h0, if_false]
        rw [toDigitsCore_acc]
        have hrec : valDigits (Nat.toDigitsCore 10 f (n / 10) []) = n / 10 :=
          ih (n / 10) (by omega)
        have hm : n % 10 < 10 := Nat.mod_lt _ (by omega)
        simp [valDigits, List.foldl_append] at hrec ⊢
        rw [hrec, digitChar_toNat (n % 10) hm]
        omega

theorem repr_data (n : Nat) : (Nat.repr n).data = Nat.toDigitsCore 10 (n + 1) n [] := rfl

theorem repr_val (n : Nat) : valDigits (Nat.repr n).data = n := by
  rw [repr_data]
  exact toDigitsCore_val (n + 1) n (Nat.lt_succ_self n)

theorem toDigitsCore_ne_dash : ∀ (f n : Nat) (acc : List Char),
    (∀ c ∈ acc, c ≠ '-') → ∀ c ∈ Nat.toDigitsCore 10 f n acc, c ≠ '-' := by
  intro f
  induction f with
  | zero =>
      intro n acc hacc
      simpa [Nat.toDigitsCore] using hacc
  | succ f ih =>
      intro n acc hacc
      simp only [Nat.toDigitsCore]
      have hd : Nat.digitChar (n % 10) ≠ '-' :=
        digitChar_ne_dash (n % 10) (Nat.mod_lt _ (by omega))
      have hacc' : ∀ c ∈ Nat.digitChar (n % 10) :: acc, c ≠ '-' := by
        intro c hc
        rcases List.mem_cons.mp hc with h | h
        · rw [h]; exact hd
        · exact hacc c h
      by_cases h0 : n / 10 = 0
      · simpa [h0] using hacc'
      · simp only [h0, if_false]
        exact ih (n / 10) _ hacc'

theorem repr_ne_dash (n : Nat) : ∀ c ∈ (Nat.repr n).data, c ≠ '-' := by
  rw [repr_data]
  exact toDigitsCore_ne_dash (n + 1) n [] (by simp)

theorem dashFree_append_inj :
    ∀ (a1 b1 a2 b2 : List Char),
      (∀ c ∈ a1, c ≠ '-') → (∀ c ∈ a2, c ≠ '-') →
      a1 ++ '-' :: b1 = a2 ++ '-' :: b2 → a1 = a2 ∧ b1 = b2 := by
  intro a1
  induction a1 with
  | nil =>
      intro b1 a2 b2 _ h2 heq
      cases a2 with
      | nil => simpa using heq
      | cons x xs =>
          simp at heq
          exact absurd heq.1.symm (h2 x (by simp))
  | cons x xs ih =>
      intro b1 a2 b2 h1 h2 heq
      cases a2 with
      | nil =>
          simp at heq
          exact absurd heq.1 (h1 x (by simp))
      | cons y ys =>
          simp at heq
          obtain ⟨hxy, hrest⟩ := heq
          obtain ⟨ha, hb⟩ := ih b1 ys b2
            (fun c hc => h1 c (by simp [hc]))
            (fun c hc => h2 c (by simp [hc])) hrest
          exact ⟨by rw [hxy, ha], hb⟩

theorem dashFree_suffix_inj (a1 b1 a2 b2 : List Char)
    (h1 : ∀ c ∈ b1, c ≠ '-') (h2 : ∀ c ∈ b2, c ≠ '-')
    (heq : a1 ++ '-' :: b1 = a2 ++ '-' :: b2) : b1 = b2 := by
  have hrev : b1.reverse ++ '-' :: a1.reverse = b2.reverse ++ '-' :: a2.reverse := by
    have := congrArg List.reverse heq
    simpa [List.reverse_append] using this
  have hinj := dashFree_append_inj b1.reverse a1.reverse b2.reverse a2.reverse
    (fun c hc => h1 c (List.mem_reverse.mp hc))
    (fun c hc => h2 c (List.mem_reverse.mp hc)) hrev
  have := congrArg List.reverse hinj.1
  simpa using this

theorem eventJti_inj_counter (t1 c1 t2 c2 : Nat)
    (h : eventJti t1 c1 = eventJti t2 c2) : c1 = c2 := by
  have hd := congrArg String.data h
  simp only [eventJti, String.data_append] at hd
  have h1 : ("event-".data ++ (Nat.repr t1).data) ++ '-' :: (Nat.repr c1).data
      = ("event-".data ++ (Nat.repr t2).data) ++ '-' :: (Nat.repr c2).data := by
    simpa [List.append_assoc] using hd
  have hD := dashFree_suffix_inj _ _ _ _ (repr_ne_dash c1) (repr_ne_dash c2) h1
  have hv := congrArg valDigits hD
  rwa [repr_val, repr_val] at hv

/-! Claim theorems, counterexamples and witnesses. -/

lemma gen_fst (st : EmitState) (fp ty : String) (now : Nat) (post : PostResult) :
    (generate_caep_event st fp ty now post).1 =
      { event_count := st.event_count + 1,
        events := st.events ++
          [{ jti := eventJti now (st.event_count + 1), iat := now,
             file_path := fp, access_type := ty }] } := rfl

lemma handle_file_read_snd (fs : FS) (st : EmitState) (now : Nat)
    (post : PostResult) (p : String) :
    (handle_file_read fs st now post p).2 =
      if is_sensitive_file monitored_patterns (fs.resolve p) then
        (generate_caep_event st (fs.resolve p) "file_access" now post).1
      else st := by
  unfold handle_file_read
  by_cases h1 : withinSandbox (fs.resolve p) = true
  · by_cases h2 : (fs.pathExists (fs.resolve p) && fs.isFile (fs.resolve p)) = true
    · simp [h1, h2]
    · simp [h1, h2]
  · simp [h1]

lemma handle_list_files_snd (fs : FS) (st : EmitState) (p : String) :
    (handle_list_files fs st p).2 = st := by
  unfold handle_list_files
  by_cases hc : (!fs.pathExists (fs.resolve p) || !fs.isDir (fs.resolve p)) = true
  · simp [hc]
  · simp [hc]

lemma listing_inv (fs : FS) (st : EmitState) (p abs_path : String)
    (entries : List (Label × String))
    (h : (handle_list_files fs st p).1 = ListResult.listing abs_path entries) :
    abs_path = fs.resolve p ∧ entries = listingEntries fs abs_path := by
  unfold handle_list_files at h
  by_cases hc : (!fs.pathExists (fs.resolve p) || !fs.isDir (fs.resolve p)) = true
  · rw [if_pos hc] at h
    exact absurd h (by simp)
  · rw [if_neg hc] at h
    obtain ⟨ha, he⟩ := ListResult.listing.inj h
    refine ⟨ha.symm, ?_⟩
    rw [← he, ha]

lemma any_perm {α : Type} {l l' : List α} (h : List.Perm l l') (f : α → Bool) :
    l.any f = l'.any f := by
  by_cases hx : l.any f = true
  · rw [hx]
    rw [List.any_eq_true] at hx
    obtain ⟨x, hm, hf⟩ := hx
    exact (List.any_eq_true.mpr ⟨x, h.mem_iff.mp hm, hf⟩).symm
  · have hx' : l.any f = false := by simpa using hx
    rw [hx']
    cases hy : l'.any f
    · rfl
    · rw [List.any_eq_true] at hy
      obtain ⟨x, hm, hf⟩ := hy
      exact absurd (List.any_eq_true.mpr ⟨x, h.mem_iff.mpr hm, hf⟩) hx

lemma any_congr {α : Type} (l : List α) (f g : α → Bool)
    (h : ∀ x ∈ l, f x = g x) : l.any f = l.any g := by
  induction l with
  | nil => rfl
  | cons x xs ih =>
      simp only [List.any_cons]
      rw [h x (by simp), ih (fun y hy => h y (by simp [hy]))]

/-- Concrete filesystem oracle used by witnesses: every path resolves to
itself and is an existing regular file with content made of a short token. -/
def fsId : FS where
  resolve := id
  pathExists := fun _ => true
  isFile := fun _ => true
  isDir := fun _ => false
  readText := fun _ => "token=123"
  listDir := fun _ => []

/-- Concrete filesystem oracle used by witnesses: every path resolves to
itself and is an existing directory with two children. -/
def fsDir : FS where
  resolve := id
  pathExists := fun _ => true
  isFile := fun _ => false
  isDir := fun _ => true
  readText := fun _ => ""
  listDir := fun _ => [⟨"public-data.txt", false⟩, ⟨"api-keys.credentials", false⟩]

/-- Concrete filesystem oracle used by witnesses: every path resolves to
itself and is an existing directory with one innocuously named child. -/
def fsSecure : FS where
  resolve := id
  pathExists := fun _ => true
  isFile := fun _ => false
  isDir := fun _ => true
  readText := fun _ => ""
  listDir := fun _ => [⟨"readme.txt", false⟩]

/-- C1 (amended): the containment check of `handle_file_read` accepts
exactly the strings that extend the sandbox root by ANY suffix, separator
or not; it is a raw string-prefix test. -/
theorem withinSandbox_iff_append (a : String) :
    withinSandbox a = true ↔ ∃ rest : String, a = sandbox_root ++ rest := by
  unfold withinSandbox pyStartsWith
  rw [ List.isPrefixOf_iff_prefix]
  constructor
  · rintro ⟨t, ht⟩
    refine ⟨⟨t⟩, ?_⟩
    apply String.ext
    rw [String.data_append]
    exact ht.symm
  · rintro ⟨rest, hrest⟩
    rw [hrest]
    exact ⟨rest.data, by rw [String.data_append]⟩

/-- C1 (counterexample): the sibling path `/workspace/test-files-evil`
passes the code's containment check although the claimed
root-plus-separator condition rejects it. -/
theorem withinSandbox_sibling_cex :
    ¬ (withinSandbox "/workspace/test-files-evil" = true ↔
        specWithinSandbox "/workspace/test-files-evil" = true) := by decide

theorem withinSandbox_iff_append_w :
    withinSandbox (sandbox_root ++ "-evil") = true :=
  (withinSandbox_iff_append (sandbox_root ++ "-evil")).mpr ⟨"-evil", rfl⟩

/-- C2 (amended): whenever the resolved path fails the raw prefix check,
`handle_file_read` returns the denial result, for every filesystem state:
no file content can be returned and no read on that branch is consulted. -/
theorem read_denied_of_prefix_fail (fs : FS) (st : EmitState) (now : Nat)
    (post : PostResult) (p : String)
    (h : withinSandbox (fs.resolve p) = false) :
    (handle_file_read fs st now post p).1 = ReadResult.denied (fs.resolve p) := by
  unfold handle_file_read
  simp [h]

/-- C2 (counterexample): a path outside the sandbox root in the claimed
segment-aware sense, but sharing it as a raw string prefix, is read and
its content returned. -/
theorem read_outside_sandbox_cex :
    specWithinSandbox "/workspace/test-files-evil/data.txt" = false ∧
    (handle_file_read fsId initState 0 (PostResult.err "down")
        "/workspace/test-files-evil/data.txt").1 =
      ReadResult.fileContent "/workspace/test-files-evil/data.txt" false "token=123" := by
  exact ⟨by decide, rfl⟩

theorem read_denied_of_prefix_fail_w :
    withinSandbox "/etc/passwd" = false ∧
    (handle_file_read fsId initState 0 (PostResult.err "down") "/etc/passwd").1 =
      ReadResult.denied "/etc/passwd" :=
  ⟨by decide, read_denied_of_prefix_fail fsId initState 0 (PostResult.err "down")
    "/etc/passwd" (by decide)⟩

/-- C3: one call to `handle_file_read` appends exactly one event, with
access type `"file_access"`, when the resolved path is classified
sensitive, and appends none otherwise — independent of existence and of
the sandbox check. -/
theorem read_emits_iff_sensitive (fs : FS) (st : EmitState) (now : Nat)
    (post : PostResult) (p : String) :
    ((handle_file_read fs st now post p).2).events =
      st.events ++
        (if is_sensitive_file monitored_patterns (fs.resolve p) then
          [{ jti := eventJti now (st.event_count + 1), iat := now,
             file_path := fs.resolve p, access_type := "file_access" }]
        else []) := by
  rw [handle_file_read_snd]
  by_cases hs : is_sensitive_file monitored_patterns (fs.resolve p) = true
  · simp [hs, gen_fst]
  · simp at hs
    simp [hs]


/-- C4 (counterexample): the classifier does not lower-case the pattern;
an upper-case pattern fails to match a path that the claimed condition
(pattern lower-cased before the substring test) matches. -/
theorem classifier_lowercase_cex :
    ¬ (is_sensitive_file ["SECRET"] "/tmp/secret.txt" = true ↔
        spec_classify ["SECRET"] "/tmp/secret.txt" = true) := by decide

/-- C4 (amended): `is_sensitive_file` is true iff some pattern, taken
as written, occurs as a substring of the lower-cased path; the boolean is
invariant under permuting the pattern list; and whenever every configured
pattern is already lower-case the code agrees with the claimed
lower-cased-pattern condition. -/
theorem classifier_characterization (monitored : List String) (filepath : String) :
    (is_sensitive_file monitored filepath = true ↔
      ∃ p ∈ monitored, ∃ u v, u ++ p.data ++ v = (pyLower filepath).data)
    ∧ (∀ monitored' : List String, List.Perm monitored monitored' →
        is_sensitive_file monitored filepath = is_sensitive_file monitored' filepath)
    ∧ ((∀ p ∈ monitored, pyLower p = p) →
        is_sensitive_file monitored filepath = spec_classify monitored filepath) := by
  refine ⟨?_, ?_, ?_⟩
  · unfold is_sensitive_file pyContains
    rw [List.any_eq_true]
    constructor
    · rintro ⟨p, hp, hc⟩
      exact ⟨p, hp, (containsSub_iff _ _).mp hc⟩
    · rintro ⟨p, hp, hc⟩
      exact ⟨p, hp, (containsSub_iff _ _).mpr hc⟩
  · intro monitored' hperm
    unfold is_sensitive_file
    exact any_perm hperm _
  · intro hlow
    unfold is_sensitive_file spec_classify
    exact any_congr _ _ _ (fun q hq => by rw [hlow q hq])

theorem classifier_characterization_w :
    is_sensitive_file [".secret", "api-key"] "/a/b" =
      is_sensitive_file ["api-key", ".secret"] "/a/b" :=
  (classifier_characterization [".secret", "api-key"] "/a/b").2.1
    ["api-key", ".secret"] (by decide)

/-- C5: the whole outcome of `handle_file_read` — response and state — is
the same for every delivery outcome of the HTTP POST, and when the path
passes the sandbox check and is an existing regular file the response is
still the file-content text. -/
theorem read_result_delivery_independent (fs : FS) (st : EmitState) (now : Nat)
    (post post' : PostResult) (p : String) :
    handle_file_read fs st now post p = handle_file_read fs st now post' p
    ∧ (withinSandbox (fs.resolve p) = true →
        fs.pathExists (fs.resolve p) = true →
        fs.isFile (fs.resolve p) = true →
        renderRead (handle_file_read fs st now post p).1 =
          renderRead (ReadResult.fileContent (fs.resolve p)
            (is_sensitive_file monitored_patterns (fs.resolve p))
            (fs.readText (fs.resolve p)))) := by
  constructor
  · rfl
  · intro h1 h2 h3
    unfold handle_file_read
    simp [h1, h2, h3]

theorem read_result_delivery_independent_w :
    renderRead (handle_file_read fsId initState 7 (PostResult.err "collector down")
        "/workspace/test-files/user-credentials.secret").1 =
      renderRead (ReadResult.fileContent "/workspace/test-files/user-credentials.secret"
        (is_sensitive_file monitored_patterns "/workspace/test-files/user-credentials.secret")
        "token=123") :=
  (read_result_delivery_independent fsId initState 7 (PostResult.err "collector down")
    (PostResult.ok 200) "/workspace/test-files/user-credentials.secret").2
    (by decide) (by decide) (by decide)


/-- Invariant carried along a run: jtis generated so far are distinct and
each embeds a positive counter value bounded by the current count. -/
def EmitInv (st : EmitState) : Prop :=
  (st.events.map SecurityEvent.jti).Nodup ∧
  ∀ ev ∈ st.events, ∃ t c, 0 < c ∧ c ≤ st.event_count ∧ ev.jti = eventJti t c

lemma emitInv_init : EmitInv initState := by
  constructor
  · simp [initState]
  · intro ev hev
    simp [initState] at hev

lemma emitInv_gen (st : EmitState) (h : EmitInv st) (fp ty : String)
    (now : Nat) (post : PostResult) :
    EmitInv ((generate_caep_event st fp ty now post).1) := by
  obtain ⟨hnd, hbound⟩ := h
  rw [gen_fst]
  constructor
  · simp only [List.map_append, List.map_cons, List.map_nil]
    refine List.Nodup.append hnd (by simp) ?_
    intro x hx1 hx2
    simp at hx2
    obtain ⟨ev, hev, hx⟩ := List.mem_map.mp hx1
    obtain ⟨t, c, hc0, hcle, hjti⟩ := hbound ev hev
    have : c = st.event_count + 1 := by
      apply eventJti_inj_counter t c now (st.event_count + 1)
      rw [← hjti, hx, hx2]
    omega
  · intro ev hev
    simp only [List.mem_append, List.mem_singleton] at hev
    rcases hev with hev | hev
    · obtain ⟨t, c, hc0, hcle, hjti⟩ := hbound ev hev
      exact ⟨t, c, hc0, by simp; omega, hjti⟩
    · exact ⟨now, st.event_count + 1, by omega, by simp, by rw [hev]⟩

lemma emitInv_step (fs : FS) (st : EmitState) (r : Request) (h : EmitInv st) :
    EmitInv (stepServer fs st r) := by
  cases r with
  | readFile now post p =>
      show EmitInv ((handle_file_read fs st now post p).2)
      rw [handle_file_read_snd]
      by_cases hs : is_sensitive_file monitored_patterns (fs.resolve p) = true
      · rw [if_pos hs]
        exact emitInv_gen st h _ _ now post
      · simp at hs
        rw [if_neg (by simp [hs])]
        exact h
  | listFiles p =>
      show EmitInv ((handle_list_files fs st p).2)
      rw [handle_list_files_snd]
      exact h

lemma emitInv_run (fs : FS) (reqs : List Request) :
    ∀ st : EmitState, EmitInv st → EmitInv (runServer fs st reqs) := by
  induction reqs with
  | nil => intro st h; exact h
  | cons r rs ih =>
      intro st h
      exact ih _ (emitInv_step fs st r h)

lemma step_count_mono (fs : FS) (st : EmitState) (r : Request) :
    st.event_count ≤ (stepServer fs st r).event_count := by
  cases r with
  | readFile now post p =>
      show st.event_count ≤ ((handle_file_read fs st now post p).2).event_count
      rw [handle_file_read_snd]
      by_cases hs : is_sensitive_file monitored_patterns (fs.resolve p) = true
      · rw [if_pos hs, gen_fst]
        simp
      · simp at hs
        rw [if_neg (by simp [hs])]
  | listFiles p =>
      show st.event_count ≤ ((handle_list_files fs st p).2).event_count
      rw [handle_list_files_snd]

/-- C6: `generate_caep_event` increments the counter by exactly one and
appends exactly one event; no handler ever decreases the counter; and all
jtis produced over any whole run from the initial state are distinct. -/
theorem event_counter_unique_ids :
    (∀ (st : EmitState) (fp ty : String) (now : Nat) (post : PostResult),
        ((generate_caep_event st fp ty now post).1).event_count = st.event_count + 1 ∧
        ((generate_caep_event st fp ty now post).1).events =
          st.events ++ [{ jti := eventJti now (st.event_count + 1), iat := now,
                          file_path := fp, access_type := ty }]) ∧
    (∀ (fs : FS) (st : EmitState) (r : Request),
        st.event_count ≤ (stepServer fs st r).event_count) ∧
    (∀ (fs : FS) (reqs : List Request),
        ((runServer fs initState reqs).events.map SecurityEvent.jti).Nodup) := by
  refine ⟨?_, step_count_mono, ?_⟩
  · intro st fp ty now post
    rw [gen_fst]
    exact ⟨rfl, rfl⟩
  · intro fs reqs
    exact (emitInv_run fs reqs initState emitInv_init).1

/-- C7: `handle_list_files` answers not-found exactly when the resolved
path does not exist or is not a directory, and otherwise returns the
labelled listing — with no sandbox condition anywhere. -/
theorem list_notfound_iff (fs : FS) (st : EmitState) (p : String) :
    ((handle_list_files fs st p).1 = ListResult.notFound (fs.resolve p) ↔
      (fs.pathExists (fs.resolve p) = false ∨ fs.isDir (fs.resolve p) = false))
    ∧ (fs.pathExists (fs.resolve p) = true → fs.isDir (fs.resolve p) = true →
        (handle_list_files fs st p).1 =
          ListResult.listing (fs.resolve p) (listingEntries fs (fs.resolve p))) := by
  by_cases he : fs.pathExists (fs.resolve p) = true
  · by_cases hd : fs.isDir (fs.resolve p) = true
    · constructor
      · unfold handle_list_files
        simp [he, hd]
      · intro _ _
        unfold handle_list_files
        simp [he, hd]
    · simp at hd
      constructor
      · unfold handle_list_files
        simp [he, hd]
      · intro _ h
        rw [hd] at h
        cases h
  · simp at he
    constructor
    · unfold handle_list_files
      simp [he]
    · intro h _
      rw [he] at h
      cases h

theorem list_notfound_iff_w :
    (handle_list_files fsDir initState "/opt/outside").1 =
      ListResult.listing "/opt/outside" (listingEntries fsDir "/opt/outside") :=
  (list_notfound_iff fsDir initState "/opt/outside").2 rfl rfl

/-- C8: the listing's entries are exactly the children, each labelled by
`entryLabel`; a child whose full path is sensitive is labelled sensitive
even when it is a directory, and otherwise the label follows its kind. -/
theorem list_child_labels (fs : FS) (st : EmitState) (p abs_path : String)
    (entries : List (Label × String))
    (h : (handle_list_files fs st p).1 = ListResult.listing abs_path entries) :
    entries = (fs.listDir abs_path).map
        (fun item => (entryLabel (childPath abs_path item.name) item.isDir, item.name))
    ∧ ∀ item ∈ fs.listDir abs_path,
        (is_sensitive_file monitored_patterns (childPath abs_path item.name) = true →
          entryLabel (childPath abs_path item.name) item.isDir = Label.sensitive)
        ∧ (is_sensitive_file monitored_patterns (childPath abs_path item.name) = false →
          entryLabel (childPath abs_path item.name) item.isDir =
            if item.isDir then Label.directory else Label.file) := by
  constructor
  · exact (listing_inv fs st p abs_path entries h).2
  · intro item _
    constructor
    · intro hs
      simp [entryLabel, hs]
    · intro hns
      simp [entryLabel, hns]

theorem list_child_labels_w :
    entryLabel (childPath "/workspace/test-files" "api-keys.credentials") false =
      Label.sensitive
    ∧ entryLabel (childPath "/workspace/test-files" "public-data.txt") false =
      Label.file := by
  have h := list_child_labels fsDir initState "/workspace/test-files"
    "/workspace/test-files" (listingEntries fsDir "/workspace/test-files") rfl
  exact ⟨(h.2 ⟨"api-keys.credentials", false⟩ (by decide)).1 (by decide),
         (h.2 ⟨"public-data.txt", false⟩ (by decide)).2 (by decide)⟩

/-- C9: `handle_list_files` returns the state unchanged for every input:
no event is appended and the counter keeps its value; only
`handle_file_read` can emit. -/
theorem list_preserves_state (fs : FS) (st : EmitState) (p : String) :
    (handle_list_files fs st p).2 = st ∧
    ((handle_list_files fs st p).2).events = st.events ∧
    ((handle_list_files fs st p).2).event_count = st.event_count := by
  have h := handle_list_files_snd fs st p
  exact ⟨h, by rw [h], by rw [h]⟩

/-- C10: when the listed directory's own absolute path is classified
sensitive, every entry of the produced listing carries the sensitive
label, whatever the child's name or kind. -/
theorem sensitive_dir_marks_all_children (fs : FS) (st : EmitState)
    (p abs_path : String) (entries : List (Label × String))
    (h : (handle_list_files fs st p).1 = ListResult.listing abs_path entries)
    (hs : is_sensitive_file monitored_patterns abs_path = true) :
    ∀ e ∈ entries, e.1 = Label.sensitive := by
  obtain ⟨-, he⟩ := listing_inv fs st p abs_path entries h
  subst he
  intro e hme
  unfold listingEntries at hme
  obtain ⟨item, hitem, rfl⟩ := List.mem_map.mp hme
  obtain ⟨t, ht⟩ := childPath_decomp abs_path item.name
  have hsc : is_sensitive_file monitored_patterns (childPath abs_path item.name) = true := by
    rw [ht]
    exact is_sensitive_file_append _ _ _ hs
  simp [entryLabel, hsc]

theorem sensitive_dir_marks_all_children_w :
    entryLabel (childPath "/data/secure/misc" "readme.txt") false = Label.sensitive :=
  sensitive_dir_marks_all_children fsSecure initState "/data/secure/misc"
    "/data/secure/misc" (listingEntries fsSecure "/data/secure/misc") rfl (by decide)
    (entryLabel (childPath "/data/secure/misc" "readme.txt") false, "readme.txt")
    (by decide)

end SSF
